import Mathlib

/-! # Verification of the Agastya intent-classification and temporal-range logic

Shallow embedding of the decision logic of `agent/langgraph_flow.py`
(`classify_intent_node_func`) and `tools/panel_tool.py` (`_calculate_date_range`,
`get_user_earnings` / `get_completed_surveys` / `get_time_earned_stats` range
validation, and `handle_panel_query` dispatch).

External collaborators (the LLM oracle, the SQL executor, the vector store) are
modelled as opaque inputs; all regex / substring scanning from the source is
embedded explicitly over `List Char`.
-/

namespace Agastya

/-! ## Calendar dates

Python `datetime` values are modelled by their date part; `timedelta` day
arithmetic is modelled by stepping one calendar day at a time. -/

/-- A calendar date (the date part of a Python `datetime`). -/
structure Date where
  year : Int
  month : Int
  day : Int
deriving DecidableEq, Repr

/-- Order induced on dates by Python `datetime` comparison (lexicographic). -/
def Date.le (a b : Date) : Prop :=
  a.year < b.year ∨
    (a.year = b.year ∧ (a.month < b.month ∨ (a.month = b.month ∧ a.day ≤ b.day)))

/-- Strict order on dates. -/
def Date.lt (a b : Date) : Prop :=
  a.year < b.year ∨
    (a.year = b.year ∧ (a.month < b.month ∨ (a.month = b.month ∧ a.day < b.day)))

instance (a b : Date) : Decidable (Date.le a b) := by unfold Date.le; infer_instance

instance (a b : Date) : Decidable (Date.lt a b) := by unfold Date.lt; infer_instance

/-- Gregorian leap-year test (as `calendar`/`datetime` implement it). -/
def isLeapYear (y : Int) : Bool :=
  y % 4 == 0 && (y % 100 != 0 || y % 400 == 0)

/-- Number of days in a month of a given year. -/
def daysInMonth (y m : Int) : Int :=
  if m == 2 then (if isLeapYear y then 29 else 28)
  else if m == 4 || m == 6 || m == 9 || m == 11 then 30
  else 31

/-- One calendar day earlier (`datetime - timedelta(days=1)`). -/
def predDay (d : Date) : Date :=
  if 1 < d.day then ⟨d.year, d.month, d.day - 1⟩
  else if 1 < d.month then ⟨d.year, d.month - 1, daysInMonth d.year (d.month - 1)⟩
  else ⟨d.year - 1, 12, 31⟩

/-- One calendar day later (`datetime + timedelta(days=1)`). -/
def succDay (d : Date) : Date :=
  if d.day < daysInMonth d.year d.month then ⟨d.year, d.month, d.day + 1⟩
  else if d.month < 12 then ⟨d.year, d.month + 1, 1⟩
  else ⟨d.year + 1, 1, 1⟩

/-- `datetime - timedelta(days=n)`. -/
def subDays (d : Date) : Nat → Date
  | 0 => d
  | n + 1 => predDay (subDays d n)

/-- `datetime + timedelta(days=n)`. -/
def addDays (d : Date) : Nat → Date
  | 0 => d
  | n + 1 => succDay (addDays d n)

/-- Days relative to 1970-01-01 of a civil date (Hinnant's algorithm); used only
to compute the day of the week. -/
def daysFromCivil (d : Date) : Int :=
  let y := if d.month ≤ 2 then d.year - 1 else d.year
  let era := (if 0 ≤ y then y else y - 399) / 400
  let yoe := y - era * 400
  let mp := (d.month + 9) % 12
  let doy := (153 * mp + 2) / 5 + d.day - 1
  let doe := yoe * 365 + yoe / 4 - yoe / 100 + doy
  era * 146097 + doe - 719468

/-- Python `datetime.weekday()`: Monday is 0, Sunday is 6. -/
def weekday (d : Date) : Int :=
  Int.emod (daysFromCivil d + 3) 7

/-- A structurally valid calendar date (every Python `datetime` satisfies this). -/
def Date.Valid (d : Date) : Prop :=
  1 ≤ d.month ∧ d.month ≤ 12 ∧ 1 ≤ d.day ∧ d.day ≤ daysInMonth d.year d.month

instance (d : Date) : Decidable d.Valid := by unfold Date.Valid; infer_instance

/-! ## Character and string scanning utilities

The Python source works on lowercased strings with `in`, `startswith` and a
handful of `re` patterns; these are embedded as explicit scanners on
`List Char`. -/

/-- ASCII digit character (used to quantify over digit strings). -/
def digitChar (d : Nat) : Char := Char.ofNat (48 + d)

/-- `\d` on the inputs at hand (ASCII digits). -/
def isDigitChar (c : Char) : Bool := 48 ≤ c.toNat && c.toNat ≤ 57

/-- Numeric value of a digit character. -/
def digitVal (c : Char) : Nat := c.toNat - 48

/-- `\s`: whitespace as Python's regex class `[ \t\n\r\x0b\x0c]`. -/
def isSpaceChar (c : Char) : Bool :=
  c == ' ' || c == '\t' || c == '\n' || c == '\r' || c.toNat == 11 || c.toNat == 12

/-- Python `str.lower()` restricted to ASCII (all scanned keywords are ASCII). -/
def lowerChar (c : Char) : Char :=
  if 65 ≤ c.toNat && c.toNat ≤ 90 then Char.ofNat (c.toNat + 32) else c

/-- Lowercase a character list. -/
def lowerChars (cs : List Char) : List Char := cs.map lowerChar

/-- `\w`: word characters for the `\b` boundary in `re.search(r'\bi\b', ...)`. -/
def isWordChar (c : Char) : Bool := c.isAlpha || isDigitChar c || c == '_'

/-- Does `needle` occur as an initial segment of `hay`? -/
def listStartsWith : List Char → List Char → Bool
  | [], _ => true
  | _ :: _, [] => false
  | a :: as, b :: bs => a == b && listStartsWith as bs

/-- Does `needle` occur as a contiguous run anywhere in `hay`
(Python `needle in hay`)? -/
def listContainsSeq (needle : List Char) : List Char → Bool
  | [] => needle.isEmpty
  | c :: rest => listStartsWith needle (c :: rest) || listContainsSeq needle rest

/-- Python `needle in hay` on a lowercased character list. -/
def hasSub (hay : List Char) (needle : String) : Bool :=
  listContainsSeq needle.toList hay

/-- Python `hay.startswith(needle)`. -/
def strStartsWith (hay : List Char) (needle : String) : Bool :=
  listStartsWith needle.toList hay

/-- Python `hay.startswith((n1, n2, ...))`. -/
def startsWithAnyOf (hay : List Char) : List String → Bool
  | [] => false
  | n :: ns => strStartsWith hay n || startsWithAnyOf hay ns

/-- Python truthiness of an optional string (`None` and `""` are falsy). -/
def truthyOpt : Option String → Bool
  | none => false
  | some s => !s.isEmpty

/-! ## `tools/panel_tool.py`: `_calculate_date_range`

The resolver lowercases its argument, returns early on "all time" markers, then
runs an `elif` chain of named relative windows, then (in the `else` arm) the
month-name+year and bare-year regexes, and finally — unconditionally — the
`last\s+(\d+)\s+(day|days|week|weeks|month|months)` regex, which overwrites
both bounds when it matches. -/

/-- Maximal run of digit characters at the head (`\d+` greedy). -/
def takeDigits : List Char → List Char × List Char
  | [] => ([], [])
  | c :: rest =>
    if isDigitChar c then
      let (ds, r) := takeDigits rest
      (c :: ds, r)
    else ([], c :: rest)

/-- `int(...)` of a digit run. -/
def digitsToNat (ds : List Char) : Nat :=
  ds.foldl (fun acc c => 10 * acc + digitVal c) 0

/-- `int(...)` of a digit run, as an `Int`. -/
def digitsToInt (ds : List Char) : Int := (digitsToNat ds : Int)

/-- Skip a (possibly empty) whitespace run. -/
def skipSpaces : List Char → List Char
  | [] => []
  | c :: rest => if isSpaceChar c then skipSpaces rest else c :: rest

/-- `\d{4}` at the head: four digit characters (what follows is unconstrained). -/
def fourDigitsAt : List Char → Option Int
  | a :: b :: c :: d :: _ =>
    if isDigitChar a && isDigitChar b && isDigitChar c && isDigitChar d then
      some (1000 * (digitVal a : Int) + 100 * (digitVal b : Int) +
            10 * (digitVal c : Int) + (digitVal d : Int))
    else none
  | _ => none

/-- `\s+(\d{4})` at the head: at least one whitespace, then a four-digit year. -/
def parseWsYear : List Char → Option Int
  | [] => none
  | c :: rest => if isSpaceChar c then fourDigitsAt (skipSpaces rest) else none

/-- The month alternation of `_calculate_date_range`'s month-year pattern, with
the month number assigned by `month_dict`: each entry is the full name, the
three-letter abbreviation, and the month number. -/
def monthTable : List (List Char × List Char × Int) :=
  [(['j','a','n','u','a','r','y'], ['j','a','n'], 1),
   (['f','e','b','r','u','a','r','y'], ['f','e','b'], 2),
   (['m','a','r','c','h'], ['m','a','r'], 3),
   (['a','p','r','i','l'], ['a','p','r'], 4),
   (['m','a','y'], ['m','a','y'], 5),
   (['j','u','n','e'], ['j','u','n'], 6),
   (['j','u','l','y'], ['j','u','l'], 7),
   (['a','u','g','u','s','t'], ['a','u','g'], 8),
   (['s','e','p','t','e','m','b','e','r'], ['s','e','p'], 9),
   (['o','c','t','o','b','e','r'], ['o','c','t'], 10),
   (['n','o','v','e','m','b','e','r'], ['n','o','v'], 11),
   (['d','e','c','e','m','b','e','r'], ['d','e','c'], 12)]

/-- Consume `needle` as a prefix of `hay`, returning the remainder. -/
def dropPrefixChars : List Char → List Char → Option (List Char)
  | [], cs => some cs
  | _ :: _, [] => none
  | a :: as, b :: bs => if a == b then dropPrefixChars as bs else none

/-- Try the month alternatives at this position: the full name (greedy optional
suffix) first, falling back to the three-letter abbreviation, each followed by
`\s+(\d{4})`. -/
def tryMonthEntries : List (List Char × List Char × Int) → List Char → Option (Int × Int)
  | [], _ => none
  | (full, ab, n) :: rest, cs =>
    match (match dropPrefixChars full cs with
           | some r => parseWsYear r
           | none => none) with
    | some y => some (n, y)
    | none =>
      match (match dropPrefixChars ab cs with
             | some y2 => parseWsYear y2
             | none => none) with
      | some y => some (n, y)
      | none => tryMonthEntries rest cs

/-- Leftmost match of the month-name + year pattern, as `(month, year)`. -/
def findMonthYear : List Char → Option (Int × Int)
  | [] => none
  | c :: rest =>
    match tryMonthEntries monthTable (c :: rest) with
    | some r => some r
    | none => findMonthYear rest

/-- `(?:^|\s)(\d{4})(?:\s|$)` at a boundary position: exactly four digits
followed by whitespace or the end of the string. -/
def bareYearAt : List Char → Option (List Char)
  | a :: b :: c :: d :: rest =>
    if isDigitChar a && isDigitChar b && isDigitChar c && isDigitChar d &&
       (match rest with | [] => true | r :: _ => isSpaceChar r) then
      some [a, b, c, d]
    else none
  | _ => none

/-- Scan for the leftmost boundary-delimited four-digit year; the flag records
whether the current position is preceded by start-of-string or whitespace. -/
def findBareYearAux : Bool → List Char → Option (List Char)
  | _, [] => none
  | atBoundary, c :: rest =>
    if atBoundary then
      match bareYearAt (c :: rest) with
      | some ds => some ds
      | none => findBareYearAux (isSpaceChar c) rest
    else findBareYearAux (isSpaceChar c) rest

/-- Leftmost match of `(?:^|\s)(\d{4})(?:\s|$)`, as the four digit characters. -/
def findBareYear (cs : List Char) : Option (List Char) :=
  findBareYearAux true cs

/-- Units of the `last X` pattern. -/
inductive TimeUnit
  | days
  | weeks
  | months
deriving DecidableEq, Repr

/-- `(day|days|week|weeks|month|months)` at the head; the alternation order
makes the short form always the one matched. -/
def unitAt (cs : List Char) : Option TimeUnit :=
  if strStartsWith cs "day" then some .days
  else if strStartsWith cs "week" then some .weeks
  else if strStartsWith cs "month" then some .months
  else none

/-- `last\s+(\d+)\s+(day|days|week|weeks|month|months)` at this position. -/
def lastXAt (cs : List Char) : Option (Nat × TimeUnit) :=
  if strStartsWith cs "last" then
    match cs.drop 4 with
    | [] => none
    | c :: rest =>
      if isSpaceChar c then
        let (ds, r) := takeDigits (skipSpaces rest)
        if ds.isEmpty then none
        else
          match r with
          | [] => none
          | c2 :: rest2 =>
            if isSpaceChar c2 then
              match unitAt (skipSpaces rest2) with
              | some u => some (digitsToNat ds, u)
              | none => none
            else none
      else none
  else none

/-- Leftmost match of the `last X days/weeks/months` pattern. -/
def findLastX : List Char → Option (Nat × TimeUnit)
  | [] => none
  | c :: rest =>
    match lastXAt (c :: rest) with
    | some r => some r
    | none => findLastX rest

/-- `"all time" in q or "all-time" in q or "lifetime" in q`. -/
def allTimeMarker (q : List Char) : Bool :=
  hasSub q "all time" || hasSub q "all-time" || hasSub q "lifetime"

/-- Start date of the `last X` months branch: `month = today.month - (n % 12)`
and `year_diff = n // 12`, with `month += 12; year_diff += 1` when the month
underflows, and the day forced to 1 by `today.replace(..., day=1)`. -/
def monthsBackStart (today : Date) (n : Nat) : Date :=
  if today.month - ((n % 12 : Nat) : Int) ≤ 0 then
    ⟨today.year - (((n / 12 : Nat) : Int) + 1), today.month - ((n % 12 : Nat) : Int) + 12, 1⟩
  else
    ⟨today.year - ((n / 12 : Nat) : Int), today.month - ((n % 12 : Nat) : Int), 1⟩

/-- Start date produced by the `last X` branch for each unit. -/
def lastXStart (today : Date) (n : Nat) : TimeUnit → Date
  | .days => subDays today n
  | .weeks => subDays today (7 * n)
  | .months => monthsBackStart today n

/-- The named-relative-window `elif` chain of `_calculate_date_range`, with the
month-name+year and bare-year patterns in its final `else` arm. -/
def relChain (q : List Char) (today : Date) : Option Date × Option Date :=
  if hasSub q "last month" then
    (some ⟨(predDay ⟨today.year, today.month, 1⟩).year,
           (predDay ⟨today.year, today.month, 1⟩).month, 1⟩,
     some (predDay ⟨today.year, today.month, 1⟩))
  else if hasSub q "last year" then
    (some ⟨today.year - 1, 1, 1⟩, some ⟨today.year - 1, 12, 31⟩)
  else if hasSub q "last week" then
    (some (subDays today ((weekday today).toNat + 7)),
     some (addDays (subDays today ((weekday today).toNat + 7)) 6))
  else if hasSub q "this month" then (some ⟨today.year, today.month, 1⟩, some today)
  else if hasSub q "this year" then (some ⟨today.year, 1, 1⟩, some today)
  else if hasSub q "this week" then (some (subDays today (weekday today).toNat), some today)
  else
    match findMonthYear q with
    | some (m, y) =>
      (some ⟨y, m, 1⟩,
       some (if m == 12 then subDays ⟨y + 1, 1, 1⟩ 1 else subDays ⟨y, m + 1, 1⟩ 1))
    | none =>
      match findBareYear q with
      | some ds => (some ⟨digitsToInt ds, 1, 1⟩, some ⟨digitsToInt ds, 12, 31⟩)
      | none => (none, none)

/-- `_calculate_date_range(time_period_keyword)` relative to a reference date
`today` (the source reads `datetime.now()`); returns `(start, end)` with `none`
for Python `None`.  The `last X` regex is checked after the whole chain and,
when it matches, overwrites both bounds. -/
def calculateDateRange (expr : String) (today : Date) : Option Date × Option Date :=
  if allTimeMarker (lowerChars expr.toList) then (some ⟨2000, 1, 1⟩, some today)
  else
    match findLastX (lowerChars expr.toList) with
    | some (n, u) => (some (lastXStart today n u), some today)
    | none => relChain (lowerChars expr.toList) today

/-! ## `tools/panel_tool.py`: future-range validation of the lookups

`get_user_earnings`, `get_completed_surveys` and `get_time_earned_stats` each
validate the requested range before querying: a start year equal to the literal
`2025` resets the range to `(2025-01-01, today)`; otherwise a start strictly
after `today` is rejected with a future-data message.  `get_time_earned_stats`
first bypasses the check entirely when the start is the `"2000-01-01"`
all-time convention.  (Each function starts by returning a
configuration-incomplete message when the database environment variables are
unset; that guard concerns the external environment and is not modelled.) -/

/-- Outcome of a lookup's range validation: reject with the future-data message
naming the year, or proceed to the SQL query with the given bounds (the
all-time variant drops the date constraints from the SQL). -/
inductive RangeCheck
  | reject (year : Int)
  | proceed (s e : Date)
  | proceedAllTime (s e : Date)
deriving DecidableEq, Repr

/-- Range validation of `get_user_earnings`. -/
def getUserEarningsRangeCheck (today s e : Date) : RangeCheck :=
  if s.year == 2025 then .proceed ⟨2025, 1, 1⟩ today
  else if Date.lt today s then .reject s.year
  else .proceed s e

/-- Range validation of `get_completed_surveys`. -/
def getCompletedSurveysRangeCheck (today s e : Date) : RangeCheck :=
  if s.year == 2025 then .proceed ⟨2025, 1, 1⟩ today
  else if Date.lt today s then .reject s.year
  else .proceed s e

/-- Range validation of `get_time_earned_stats` (with the all-time bypass). -/
def getTimeEarnedStatsRangeCheck (today s e : Date) : RangeCheck :=
  if s == ⟨2000, 1, 1⟩ then .proceedAllTime s e
  else if s.year == 2025 then .proceed ⟨2025, 1, 1⟩ today
  else if Date.lt today s then .reject s.year
  else .proceed s e

/-! ## `tools/panel_tool.py`: `handle_panel_query`

The dispatcher lowercases the query, rejects a falsy user id, answers static
FAQs, extracts a time-period keyword via its own regex cascade, resolves it
with `_calculate_date_range`, and routes to one of the predefined lookups, the
LLM-generated-SQL path, or the fallback help text. -/

/-- Maximal whitespace run at the head. -/
def takeSpaces : List Char → List Char × List Char
  | [] => ([], [])
  | c :: rest =>
    if isSpaceChar c then
      let (ws, r) := takeSpaces rest
      (c :: ws, r)
    else ([], c :: rest)

/-- Four digit characters at the head, returned verbatim. -/
def fourChars : List Char → Option (List Char)
  | a :: b :: c :: d :: _ =>
    if isDigitChar a && isDigitChar b && isDigitChar c && isDigitChar d then
      some [a, b, c, d]
    else none
  | _ => none

/-- `\s+(\d{4})` at the head, returning the consumed characters. -/
def parseWsYearSpan : List Char → Option (List Char)
  | [] => none
  | c :: rest =>
    if isSpaceChar c then
      let (ws, r) := takeSpaces rest
      match fourChars r with
      | some ds => some (c :: ws ++ ds)
      | none => none
    else none

/-- `\s+(\d{4})` at the head, returning only the captured digits. -/
def parseWsYearDigits : List Char → Option (List Char)
  | [] => none
  | c :: rest =>
    if isSpaceChar c then fourChars (skipSpaces rest) else none

/-- Month-name + year alternatives at this position, returning the whole
matched text (`group(0)`). -/
def tryMonthEntriesSpan : List (List Char × List Char × Int) → List Char → Option (List Char)
  | [], _ => none
  | (full, ab, _) :: rest, cs =>
    match (match dropPrefixChars full cs with
           | some r => (parseWsYearSpan r).map (fun sp => full ++ sp)
           | none => none) with
    | some r => some r
    | none =>
      match (match dropPrefixChars ab cs with
             | some r => (parseWsYearSpan r).map (fun sp => ab ++ sp)
             | none => none) with
      | some r => some r
      | none => tryMonthEntriesSpan rest cs

/-- Leftmost month-name + year match, as its `group(0)` text. -/
def findMonthYearSpan : List Char → Option (List Char)
  | [] => none
  | c :: rest =>
    match tryMonthEntriesSpan monthTable (c :: rest) with
    | some r => some r
    | none => findMonthYearSpan rest

/-- `word\s+(\d{4})` at this position (for the `in`/`for`/`during` patterns,
which carry no word boundary in the source). -/
def afterWordYearAt (w : String) (cs : List Char) : Option (List Char) :=
  if strStartsWith cs w then parseWsYearDigits (cs.drop w.length) else none

/-- Leftmost match of `word\s+(\d{4})`. -/
def findAfterWordYear (w : String) : List Char → Option (List Char)
  | [] => none
  | c :: rest =>
    match afterWordYearAt w (c :: rest) with
    | some ds => some ds
    | none => findAfterWordYear w rest

/-- The lazy gap of `about\s+.*?(\d{4})` after one whitespace character has been
consumed: `allWs` records that every character so far is whitespace, `seenSplit`
that some split into `\s+` then a newline-free `.*?` exists up to here. -/
def aboutGapGo (allWs seenSplit : Bool) : List Char → Option (List Char)
  | [] => none
  | c :: rest =>
    match (if seenSplit then fourChars (c :: rest) else none) with
    | some ds => some ds
    | none =>
      let allWs2 := allWs && isSpaceChar c
      aboutGapGo allWs2 (allWs2 || (seenSplit && c != '\n')) rest

/-- `about\s+.*?(\d{4})` at this position. -/
def aboutYearAt (cs : List Char) : Option (List Char) :=
  if strStartsWith cs "about" then
    match cs.drop 5 with
    | [] => none
    | c :: rest => if isSpaceChar c then aboutGapGo true true rest else none
  else none

/-- Leftmost match of `about\s+.*?(\d{4})`. -/
def findAboutYear : List Char → Option (List Char)
  | [] => none
  | c :: rest =>
    match aboutYearAt (c :: rest) with
    | some ds => some ds
    | none => findAboutYear rest

/-- The newline-free lazy gap of `.*?(\d{4})`. -/
def dotGapYear : List Char → Option (List Char)
  | [] => none
  | c :: rest =>
    match fourChars (c :: rest) with
    | some ds => some ds
    | none => if c == '\n' then none else dotGapYear rest

/-- `(?:earn|earned|earnings|income).*?(\d{4})` at this position (the
alternatives are tried in order, with backtracking across them). -/
def earnYearAt (cs : List Char) : Option (List Char) :=
  match (if strStartsWith cs "earn" then dotGapYear (cs.drop 4) else none) with
  | some ds => some ds
  | none =>
    match (if strStartsWith cs "earned" then dotGapYear (cs.drop 6) else none) with
    | some ds => some ds
    | none =>
      match (if strStartsWith cs "earnings" then dotGapYear (cs.drop 8) else none) with
      | some ds => some ds
      | none => if strStartsWith cs "income" then dotGapYear (cs.drop 6) else none

/-- Leftmost match of `(?:earn|earned|earnings|income).*?(\d{4})`. -/
def findEarnYear : List Char → Option (List Char)
  | [] => none
  | c :: rest =>
    match earnYearAt (c :: rest) with
    | some ds => some ds
    | none => findEarnYear rest

/-- The `year_patterns` loop of `handle_panel_query`: the six patterns are
tried in order and the first match supplies `matched_year`. -/
def handleYearScan (q : List Char) : Option (List Char) :=
  match findAfterWordYear "in" q with
  | some ds => some ds
  | none =>
    match findAfterWordYear "for" q with
    | some ds => some ds
    | none =>
      match findAfterWordYear "during" q with
      | some ds => some ds
      | none =>
        match findAboutYear q with
        | some ds => some ds
        | none =>
          match findEarnYear q with
          | some ds => some ds
          | none => findBareYear q

/-- The unit alternation, returning the matched text (always the short form,
since `day`/`week`/`month` precede their plurals and end the pattern). -/
def unitSpanAt (cs : List Char) : Option (List Char) :=
  if strStartsWith cs "day" then some "day".toList
  else if strStartsWith cs "week" then some "week".toList
  else if strStartsWith cs "month" then some "month".toList
  else none

/-- `last\s+(\d+)\s+(day|days|week|weeks|month|months)` at this position,
returning `group(0)`. -/
def lastXSpanAt (cs : List Char) : Option (List Char) :=
  if strStartsWith cs "last" then
    match cs.drop 4 with
    | [] => none
    | c :: rest =>
      if isSpaceChar c then
        let (ws1, r1) := takeSpaces rest
        let (ds, r2) := takeDigits r1
        if ds.isEmpty then none
        else
          match r2 with
          | [] => none
          | c2 :: rest2 =>
            if isSpaceChar c2 then
              let (ws2, r3) := takeSpaces rest2
              match unitSpanAt r3 with
              | some u => some ("last".toList ++ c :: ws1 ++ ds ++ c2 :: ws2 ++ u)
              | none => none
            else none
      else none
  else none

/-- Leftmost match of the `last X` pattern, as its `group(0)` text. -/
def findLastXSpan : List Char → Option (List Char)
  | [] => none
  | c :: rest =>
    match lastXSpanAt (c :: rest) with
    | some r => some r
    | none => findLastXSpan rest

/-- `STATIC_ANSWERS` of `tools/panel_tool.py`, in insertion order. -/
def staticAnswers : List (String × String) :=
  [("change email id",
    "To change your email ID, please go to your Profile section on our website and look for the 'Edit Profile' or 'Account Settings' option. You should be able to update your email address there. If you face any issues, please contact support."),
   ("update profile",
    "You can update your profile information, including personal details and payment preferences, by navigating to the 'Profile' or 'My Account' section after logging into our platform."),
   ("payment methods",
    "We offer several payment methods, typically including PayPal and direct bank transfers, depending on your region. Please check the 'Payments' or 'Rewards' section for details specific to your account."),
   ("forgot password",
    "If you've forgotten your password, please use the 'Forgot Password?' link on the login page. You'll receive an email with instructions to reset it.")]

/-- First static FAQ whose trigger occurs in the lowercased query. -/
def faqScan : List (String × String) → List Char → Option String
  | [], _ => none
  | (trigger, answer) :: rest, q =>
    if hasSub q trigger then some answer else faqScan rest q

/-- Time-period keyword extraction of `handle_panel_query` (step 2). -/
def extractTimePeriod (q : List Char) : String :=
  if allTimeMarker q then "all time"
  else
    match findMonthYearSpan q with
    | some span => String.mk span
    | none =>
      match handleYearScan q with
      | some ds => String.mk ds
      | none =>
        match findLastXSpan q with
        | some span => String.mk span
        | none =>
          if hasSub q "last month" then "last month"
          else if hasSub q "last year" then "last year"
          else if hasSub q "last week" then "last week"
          else if hasSub q "this month" then "this month"
          else if hasSub q "this year" then "this year"
          else if hasSub q "this week" then "this week"
          else "all time"

/-- `is_earnings_query`. -/
def isEarningsQuery (q : List Char) : Bool :=
  (hasSub q "how much" && hasSub q "earn") || hasSub q "earnings" ||
  hasSub q "check earn" || hasSub q "show earn" || hasSub q "view earn" ||
  hasSub q "tell me about earn" || hasSub q "tell me my earn" ||
  hasSub q "know my earn" || hasSub q "get my earn"

/-- `is_survey_list_query`. -/
def isSurveyListQuery (q : List Char) : Bool :=
  (hasSub q "surveys" && hasSub q "completed") ||
  (hasSub q "what surveys" && hasSub q "did i complete") ||
  hasSub q "which surveys"

/-- `is_last_participation_query`. -/
def isLastParticipationQuery (q : List Char) : Bool :=
  hasSub q "last participation date" || hasSub q "when did i last participate"

/-- `is_time_stats_query`. -/
def isTimeStatsQuery (q : List Char) : Bool :=
  hasSub q "time" && hasSub q "earn" && !(hasSub q "all time")

/-- `is_story_query` (computed by the source but never consulted in dispatch). -/
def isStoryQuery (q : List Char) : Bool :=
  hasSub q "story" || hasSub q "relationship with zoomrx" || hasSub q "journey"

/-- Python truthiness of the `user_id` argument (`None` or `0` are falsy). -/
def pyFalsyId : Option Int → Bool
  | none => true
  | some n => n == 0

/-- What `handle_panel_query` does with a query: each constructor records the
call it makes (the SQL execution and LLM generation themselves are external). -/
inductive PanelOutcome
  | errorMsg (msg : String)
  | staticFAQ (answer : String)
  | earningsLookup (s e : Date)
  | timeStatsLookup (s e : Date)
  | surveysLookup (s e : Date)
  | lastParticipationLookup
  | llmGeneratedQuery (timePeriod : String) (s e : Option Date)
  | fallbackHelp
deriving DecidableEq, Repr

/-- `handle_panel_query(user_query, user_id)`, relative to a reference date and
to whether the DB schema context was loaded (which gates the LLM path). -/
def handlePanelQuery (userQuery : String) (userId : Option Int) (today : Date)
    (schemaLoaded : Bool) : PanelOutcome :=
  let q := lowerChars userQuery.toList
  if pyFalsyId userId then
    .errorMsg "Error: User ID not provided. Cannot process panel query."
  else
    match faqScan staticAnswers q with
    | some answer => .staticFAQ answer
    | none =>
      let keyword := extractTimePeriod q
      let (s, e) := calculateDateRange keyword today
      if isEarningsQuery q && !isTimeStatsQuery q then
        match s, e with
        | some sd, some ed => .earningsLookup sd ed
        | _, _ => .earningsLookup ⟨2000, 1, 1⟩ today
      else if isTimeStatsQuery q then
        match s, e with
        | some sd, some ed => .timeStatsLookup sd ed
        | _, _ => .timeStatsLookup ⟨2000, 1, 1⟩ today
      else if isSurveyListQuery q then
        match s, e with
        | some sd, some ed => .surveysLookup sd ed
        | _, _ => .surveysLookup ⟨2000, 1, 1⟩ today
      else if isLastParticipationQuery q then .lastParticipationLookup
      else if schemaLoaded then .llmGeneratedQuery keyword s e
      else .fallbackHelp

/-! ## `agent/langgraph_flow.py`: `classify_intent_node_func`

The node detects a follow-up (a lexical cue prefix, or a key phrase of the
previous AI message echoed in the query) and, if the previous intent is truthy,
returns it unchanged.  Otherwise it consults the LLM oracle (an external
collaborator, modelled opaquely), normalizes its answer, and runs the
deterministic keyword-override `elif` chain. -/

/-- `'"'` or `"'"` — the quote class of `re.findall(r'["\'](.*?)["\']', ...)`. -/
def isQuoteChar (c : Char) : Bool :=
  c == Char.ofNat 34 || c == Char.ofNat 39

/-- Python `str.strip()`. -/
def stripChars (cs : List Char) : List Char :=
  ((cs.dropWhile isSpaceChar).reverse.dropWhile isSpaceChar).reverse

/-- `content.strip().lower().replace("'", "")` — oracle answer normalization. -/
def normalizeIntent (s : String) : String :=
  String.mk ((lowerChars (stripChars s.toList)).filter (fun c => c != Char.ofNat 39))

/-- The fixed continuation-cue prefixes. -/
def followupCues : List String :=
  ["tell me more", "what about", "and", "how about", "what is", "can you elaborate"]

/-- Scan for the closing quote of a lazily-matched quoted phrase: the capture
runs to the first quote character, failing at a newline (`.` does not match
`\n`). -/
def quoteClose : List Char → Option (List Char × List Char)
  | [] => none
  | c :: rest =>
    if isQuoteChar c then some ([], rest)
    else if c == '\n' then none
    else
      match quoteClose rest with
      | some (cap, rem) => some (c :: cap, rem)
      | none => none

/-- `re.findall(r'["\'](.*?)["\']', sentence)`: scan left to right, resuming
after each match, advancing one character on failure.  The fuel is the list
length, which bounds the number of scan steps. -/
def quotedPhrasesF : Nat → List Char → List (List Char)
  | 0, _ => []
  | _ + 1, [] => []
  | fuel + 1, c :: rest =>
    if isQuoteChar c then
      match quoteClose rest with
      | some (cap, rem) => cap :: quotedPhrasesF fuel rem
      | none => quotedPhrasesF fuel rest
    else quotedPhrasesF fuel rest

/-- All lazily-quoted substrings of a sentence. -/
def quotedPhrases (cs : List Char) : List (List Char) :=
  quotedPhrasesF cs.length cs

/-- Scan for the closing `**` of a bold phrase. -/
def boldClose : List Char → Option (List Char × List Char)
  | [] => none
  | c :: rest =>
    if listStartsWith ['*', '*'] (c :: rest) then some ([], rest.drop 1)
    else if c == '\n' then none
    else
      match boldClose rest with
      | some (cap, rem) => some (c :: cap, rem)
      | none => none

/-- `re.findall(r'\*\*(.*?)\*\*', sentence)`. -/
def boldPhrasesF : Nat → List Char → List (List Char)
  | 0, _ => []
  | _ + 1, [] => []
  | fuel + 1, c :: rest =>
    if listStartsWith ['*', '*'] (c :: rest) then
      match boldClose (rest.drop 1) with
      | some (cap, rem) => cap :: boldPhrasesF fuel rem
      | none => boldPhrasesF fuel rest
    else boldPhrasesF fuel rest

/-- All bold-marked substrings of a sentence. -/
def boldPhrases (cs : List Char) : List (List Char) :=
  boldPhrasesF cs.length cs

/-- The `[\d\*\-]` character class of the list-item pattern. -/
def isNumMarkChar (c : Char) : Bool :=
  isDigitChar c || c == '*' || c == '-'

/-- `re.search(r'^\s*[\d\*\-]+\.?\s+', sentence)`: leading whitespace, at least
one digit/star/hyphen, an optional dot, then at least one whitespace. -/
def numberedPrefix (cs : List Char) : Bool :=
  let afterWs := skipSpaces cs
  let marks := afterWs.takeWhile isNumMarkChar
  let r := afterWs.dropWhile isNumMarkChar
  !marks.isEmpty &&
    (match r with
     | [] => false
     | c :: r2 =>
       if c == '.' then (match r2 with | c2 :: _ => isSpaceChar c2 | [] => false)
       else isSpaceChar c)

/-- `previous_ai_message.split('.')`. -/
def splitDot : List Char → List (List Char)
  | [] => [[]]
  | c :: rest =>
    if c == '.' then [] :: splitDot rest
    else
      match splitDot rest with
      | s :: ss => (c :: s) :: ss
      | [] => [[c]]

/-- Key phrases collected from one sentence: quoted substrings, the stripped
sentence if it looks like a list item, and bold substrings. -/
def sentencePhrases (s : List Char) : List (List Char) :=
  (if s.any isQuoteChar then quotedPhrases s else []) ++
  (if numberedPrefix s then [stripChars s] else []) ++
  (if listContainsSeq ['*', '*'] s then boldPhrases s else [])

/-- All key phrases of the previous AI message. -/
def extractKeyPhrases (prevAi : List Char) : List (List Char) :=
  (splitDot prevAi).flatMap sentencePhrases

/-- Does any key phrase of length greater than 5 occur (case-insensitively)
in the user input? -/
def phraseEcho (userLower : List Char) (phrases : List (List Char)) : Bool :=
  phrases.any (fun p => 5 < p.length && listContainsSeq (lowerChars p) userLower)

/-- The follow-up detection of `classify_intent_node_func`: a lexical cue
prefix (requiring a truthy previous intent), or a topic-phrase echo (requiring
truthy previous intent and previous AI message). -/
def isFollowup (userInput : String) (previousIntent previousAiMessage : Option String) :
    Bool :=
  (truthyOpt previousIntent &&
    startsWithAnyOf (lowerChars userInput.toList) followupCues) ||
  (match previousAiMessage with
   | none => false
   | some ai =>
     truthyOpt previousIntent && (!ai.isEmpty &&
       phraseEcho (lowerChars userInput.toList) (extractKeyPhrases ai.toList)))

/-- The earnings vocabulary shared by override rules. -/
def earnWordsB (q : List Char) : Bool :=
  hasSub q "earn" || hasSub q "earned" || hasSub q "earnings" ||
  hasSub q "money" || hasSub q "payment" || hasSub q "income"

/-- Override rule: ZoomRx product/offering question. -/
def ruleZoomrxProduct (q : List Char) : Bool :=
  (hasSub q "zoomrx" || hasSub q "zoom rx") &&
  (hasSub q "product" || hasSub q "service" || hasSub q "offer" ||
   hasSub q "offering" || hasSub q "outside of" || hasSub q "besides" ||
   hasSub q "what is" || hasSub q "what are" || hasSub q "tell me about")

/-- The personal-context word list of the earnings overrides (note that the
bare substring `"i"` matches the letter `i` anywhere in the query). -/
def personalWords (q : List Char) : Bool :=
  hasSub q "my" || hasSub q "check" || hasSub q "show" || hasSub q "view" ||
  hasSub q "i" || hasSub q "how much"

/-- The recency word list of the earnings overrides. -/
def recencyWords (q : List Char) : Bool :=
  hasSub q "last" || hasSub q "past" || hasSub q "previous" || hasSub q "month" ||
  hasSub q "year" || hasSub q "week" || hasSub q "recent" || hasSub q "history"

/-- Override rule: personal earnings query with explicit recency wording. -/
def ruleEarningsRecency (q : List Char) : Bool :=
  earnWordsB q && (personalWords q && recencyWords q)

/-- The guard of the earnings-with-specific-year override: earnings vocabulary
plus personal wording; the year itself is only searched inside the branch. -/
def ruleEarningsPersonalGuard (q : List Char) : Bool :=
  earnWordsB q && personalWords q

/-- Four consecutive digits anywhere (the branch's first pattern `(\d{4})`). -/
def anyFourDigits : List Char → Bool
  | [] => false
  | c :: rest => (fourChars (c :: rest)).isSome || anyFourDigits rest

/-- The `year_patterns` loop inside the earnings-with-year branch (the first
pattern is an unanchored `(\d{4})`, which decides the loop). -/
def classifyYearFound (q : List Char) : Bool :=
  anyFourDigits q || (findAfterWordYear "in" q).isSome ||
  (findAfterWordYear "for" q).isSome || (findAfterWordYear "during" q).isSome

/-- The extended earnings vocabulary of the opportunity override. -/
def earnWordsD (q : List Char) : Bool :=
  hasSub q "earn" || hasSub q "earned" || hasSub q "earnings" ||
  hasSub q "money" || hasSub q "payment" || hasSub q "income" ||
  hasSub q "compensation" || hasSub q "paid" || hasSub q "make money"

/-- The opportunity word list. -/
def opportunityWords (q : List Char) : Bool :=
  hasSub q "increase" || hasSub q "how" || hasSub q "ways" || hasSub q "can" ||
  hasSub q "potential" || hasSub q "opportunity" || hasSub q "opportunities" ||
  hasSub q "possible" || hasSub q "more"

/-- Override rule: earnings-opportunity question without recency wording. -/
def ruleEarningsOpportunity (q : List Char) : Bool :=
  earnWordsD q && opportunityWords q && !(recencyWords q)

/-- `re.search(r'\bi\b', q)`: a standalone letter `i`. -/
def wbIAux (prevWord : Bool) : List Char → Bool
  | [] => false
  | c :: rest =>
    (!prevWord && c == 'i' &&
      (match rest with | [] => true | c2 :: _ => !isWordChar c2)) ||
    wbIAux (isWordChar c) rest

/-- Word-boundary search for the standalone letter `i`. -/
def wordBoundaryI (cs : List Char) : Bool := wbIAux false cs

/-- Personal-context disjunct of the panel-data override. -/
def ruleEPersonal (q : List Char) : Bool :=
  hasSub q "my" || wordBoundaryI q || hasSub q "me" || hasSub q "show" ||
  hasSub q "check"

/-- Time-indicator disjunct of the panel-data override (broad recency
vocabulary including month names and quarter labels). -/
def ruleETime (q : List Char) : Bool :=
  hasSub q "history" || hasSub q "last" || hasSub q "past" || hasSub q "recent" ||
  hasSub q "previous" || hasSub q "month" || hasSub q "year" || hasSub q "week" ||
  hasSub q "day" || hasSub q "january" || hasSub q "february" || hasSub q "march" ||
  hasSub q "april" || hasSub q "may" || hasSub q "june" || hasSub q "july" ||
  hasSub q "august" || hasSub q "september" || hasSub q "october" ||
  hasSub q "november" || hasSub q "december" || hasSub q "q1" || hasSub q "q2" ||
  hasSub q "q3" || hasSub q "q4" || hasSub q "so far" || hasSub q "to date" ||
  hasSub q "have earned" || hasSub q "earned so far" || hasSub q "have i" ||
  hasSub q "did i"

/-- Personal-surveys disjunct of the panel-data override. -/
def ruleSurveyWords (q : List Char) : Bool :=
  (hasSub q "surveys" || hasSub q "participation") &&
  (hasSub q "my" || hasSub q "i" || hasSub q "complete" || hasSub q "completed" ||
   hasSub q "took" || hasSub q "taken" || hasSub q "did" || hasSub q "finished" ||
   hasSub q "submitted")

/-- Override rule: panel/market-share keywords, personal surveys, or personal
earnings history. -/
def rulePanelData (q : List Char) : Bool :=
  (hasSub q "panel" || hasSub q "prescribing" || hasSub q "market share") ||
  ruleSurveyWords q ||
  (earnWordsB q && (ruleEPersonal q && ruleETime q))

/-- Override rule: any other ZoomRx-flavored vocabulary. -/
def ruleZoomrxOther (q : List Char) : Bool :=
  hasSub q "zoomrx" || hasSub q "zoom rx" || hasSub q "product" ||
  hasSub q "service" || hasSub q "offer" || hasSub q "hcp-pt" ||
  hasSub q "hcp-patient" || hasSub q "advisory board" || hasSub q "perxcept" ||
  hasSub q "digital tracker" || hasSub q "web extension" || hasSub q "referral" ||
  hasSub q "refer" || hasSub q "referrals" || hasSub q "referral program" ||
  hasSub q "referring" || hasSub q "browser extension" ||
  hasSub q "record conversations" || hasSub q "dialogue" ||
  hasSub q "patient recording" || hasSub q "recording patients" ||
  hasSub q "forward emails" || hasSub q "email forwarding" ||
  hasSub q "hcp survey" || hasSub q "survey offering" ||
  hasSub q "survey offerings" || hasSub q "types of survey" ||
  hasSub q "survey types" || hasSub q "types of surveys"

/-- Override rule: conference/event keywords. -/
def ruleConference (q : List Char) : Bool :=
  hasSub q "conference" || hasSub q "asco" || hasSub q "esmo" || hasSub q "acc"

/-- The label list of the final sanitizing `elif` (it omits `"unknown"`). -/
def validIntentLabels : List String :=
  ["panel_support", "conference_info", "research_lookup", "greeting_chit_chat",
   "zoomrx_wiki"]

/-- The deterministic keyword-override `elif` chain of
`classify_intent_node_func`, applied to the lowercased input and the oracle's
normalized answer.  The final not-in-valid-labels arm belongs to the same
chain, so it only runs when none of the override rules matched. -/
def overrideChain (q : List Char) (intent : String) : String :=
  if ruleZoomrxProduct q then "zoomrx_wiki"
  else if ruleEarningsRecency q then "panel_support"
  else if ruleEarningsPersonalGuard q then
    (if classifyYearFound q then "panel_support" else intent)
  else if ruleEarningsOpportunity q then "zoomrx_wiki"
  else if rulePanelData q then "panel_support"
  else if ruleZoomrxOther q then "zoomrx_wiki"
  else if ruleConference q then "conference_info"
  else if !(validIntentLabels.contains intent) then "unknown"
  else intent

/-- The LLM classification oracle, modelled opaquely: it either returns some
text or raises. -/
inductive Oracle
  | answers (text : String)
  | throws

/-- The classified intent computed by `classify_intent_node_func` for a user
input, given the previous turn's state, whether the API key is configured, and
the oracle's behavior.  (The node also returns `researchQuery = userInput` and
the updated state; only the intent is modelled here.) -/
def classifyIntent (userInput : String)
    (previousIntent _conversationTopic previousAiMessage : Option String)
    (apiKeyPresent : Bool) (oracle : Oracle) : String :=
  if isFollowup userInput previousIntent previousAiMessage && truthyOpt previousIntent then
    previousIntent.getD ""
  else if !apiKeyPresent then "unknown"
  else
    let intent :=
      match oracle with
      | .answers t => normalizeIntent t
      | .throws => "unknown"
    overrideChain (lowerChars userInput.toList) intent

/-- Python `str.split()` (whitespace runs, empties dropped), via an
accumulator. -/
def splitWsAux : List Char → List Char → List (List Char)
  | acc, [] => if acc.isEmpty then [] else [acc.reverse]
  | acc, c :: rest =>
    if isSpaceChar c then
      if acc.isEmpty then splitWsAux [] rest else acc.reverse :: splitWsAux [] rest
    else splitWsAux (c :: acc) rest

/-- Python `str.split()`. -/
def splitWs (cs : List Char) : List (List Char) := splitWsAux [] cs

/-- Python `' '.join(...)`. -/
def joinWithSpace : List (List Char) → List Char
  | [] => []
  | [w] => w
  | w :: rest => w ++ ' ' :: joinWithSpace rest

/-- The conversation-topic fingerprint: lowercase, drop words of length at
most 3, join, truncate to 50 characters. -/
def extractTopic (userInput : String) : String :=
  String.mk
    ((joinWithSpace ((splitWs (lowerChars userInput.toList)).filter
        (fun w => 3 < w.length))).take 50)

/-! # Theorems

General lemmas about the embedding first, then one theorem per specification
claim, each with its witness or counterexample. -/

theorem toList_mk (l : List Char) : (String.mk l).toList = l := rfl

/-! ## Order lemmas for dates -/

theorem dateLe_refl (d : Date) : Date.le d d := by
  unfold Date.le; omega

theorem dateLe_trans {a b c : Date} (h1 : Date.le a b) (h2 : Date.le b c) :
    Date.le a c := by
  unfold Date.le at *; omega

theorem predDay_le (d : Date) : Date.le (predDay d) d := by
  unfold predDay Date.le
  split <;> (try split) <;> simp

theorem le_succDay (d : Date) : Date.le d (succDay d) := by
  unfold succDay Date.le
  split <;> (try split) <;> simp

theorem subDays_le (d : Date) (n : Nat) : Date.le (subDays d n) d := by
  induction n with
  | zero => exact dateLe_refl d
  | succ n ih => exact dateLe_trans (predDay_le (subDays d n)) ih

theorem le_addDays (d : Date) (n : Nat) : Date.le d (addDays d n) := by
  induction n with
  | zero => exact dateLe_refl d
  | succ n ih => exact dateLe_trans ih (le_succDay (addDays d n))

theorem daysInMonth_ge (y m : Int) : 28 ≤ daysInMonth y m := by
  unfold daysInMonth
  split_ifs <;> omega

theorem firstOfMonth_le (d : Date) (h : 1 ≤ d.day) :
    Date.le ⟨d.year, d.month, 1⟩ d := by
  unfold Date.le; simp; omega

theorem monthsBackStart_le (today : Date) (n : Nat) (h : 1 ≤ today.day) :
    Date.le (monthsBackStart today n) today := by
  unfold monthsBackStart Date.le
  split <;> simp <;> omega

/-! ## Digit-character lemmas -/

theorem digitChar_toNat (k : Nat) (hk : k ≤ 9) : (digitChar k).toNat = 48 + k := by
  interval_cases k <;> decide

theorem isDigitChar_digitChar (k : Nat) (hk : k ≤ 9) :
    isDigitChar (digitChar k) = true := by
  interval_cases k <;> decide

theorem isSpaceChar_digitChar (k : Nat) (hk : k ≤ 9) :
    isSpaceChar (digitChar k) = false := by
  interval_cases k <;> decide

theorem lowerChar_digitChar (k : Nat) (hk : k ≤ 9) :
    lowerChar (digitChar k) = digitChar k := by
  interval_cases k <;> decide

theorem digitVal_digitChar (k : Nat) (hk : k ≤ 9) : digitVal (digitChar k) = k := by
  interval_cases k <;> decide

theorem ne_digitChar (c : Char) (k : Nat) (hk : k ≤ 9) (hc : 57 < c.toNat) :
    c ≠ digitChar k := by
  intro h
  have h2 := digitChar_toNat k hk
  rw [← h] at h2
  omega

/-! ## Substring-scan lemmas -/

theorem listStartsWith_sub {needle hay : List Char}
    (h : listStartsWith needle hay = true) : ∀ x ∈ needle, x ∈ hay := by
  induction needle generalizing hay with
  | nil => intro x hx; simp at hx
  | cons a as ih =>
    cases hay with
    | nil => simp [listStartsWith] at h
    | cons b bs =>
      simp only [listStartsWith, Bool.and_eq_true, beq_iff_eq] at h
      intro x hx
      rcases List.mem_cons.mp hx with rfl | hx2
      · rw [h.1]; exact List.mem_cons_self b bs
      · exact List.mem_cons_of_mem _ (ih h.2 x hx2)

theorem listContainsSeq_false_of_missing (needle : List Char) (c : Char)
    (hc : c ∈ needle) : ∀ hay : List Char, c ∉ hay →
      listContainsSeq needle hay = false := by
  intro hay
  induction hay with
  | nil =>
    intro _
    unfold listContainsSeq
    cases needle with
    | nil => simp at hc
    | cons x xs => rfl
  | cons b bs ih =>
    intro hmem
    have h1 : listStartsWith needle (b :: bs) = false := by
      cases hsw : listStartsWith needle (b :: bs) with
      | false => rfl
      | true => exact absurd (listStartsWith_sub hsw c hc) hmem
    have h2 : listContainsSeq needle bs = false :=
      ih (fun hx => hmem (List.mem_cons_of_mem _ hx))
    unfold listContainsSeq
    rw [h1, h2]
    rfl

theorem not_mem_nameDigits {c : Char} {name : List Char} (hn : c ∉ name)
    (hsp : c ≠ ' ') (h57 : 57 < c.toNat) {a b c2 d : Nat}
    (ha : a ≤ 9) (hb : b ≤ 9) (hc2 : c2 ≤ 9) (hd : d ≤ 9) :
    c ∉ name ++ ' ' :: [digitChar a, digitChar b, digitChar c2, digitChar d] := by
  intro hmem
  rcases List.mem_append.mp hmem with h | h
  · exact hn h
  · simp only [List.mem_cons, List.not_mem_nil, or_false] at h
    rcases h with rfl | h | h | h | h
    · exact hsp rfl
    · exact ne_digitChar c a ha h57 h
    · exact ne_digitChar c b hb h57 h
    · exact ne_digitChar c c2 hc2 h57 h
    · exact ne_digitChar c d hd h57 h

/-- `hasSub` is false on a month-name-plus-digits string whenever some character
of the needle is neither in the name, a space, nor a digit. -/
theorem hasSub_nameDigits_false (s : String) (c : Char) (hc : c ∈ s.toList)
    {name : List Char} (hn : c ∉ name) (hsp : c ≠ ' ') (h57 : 57 < c.toNat)
    {a b c2 d : Nat} (ha : a ≤ 9) (hb : b ≤ 9) (hc2 : c2 ≤ 9) (hd : d ≤ 9) :
    hasSub (name ++ ' ' :: [digitChar a, digitChar b, digitChar c2, digitChar d]) s
      = false :=
  listContainsSeq_false_of_missing s.toList c hc _
    (not_mem_nameDigits hn hsp h57 ha hb hc2 hd)

/-- The follow-up detector only signals when the previous intent is truthy. -/
theorem isFollowup_truthy {userInput : String} {prev prevAi : Option String}
    (h : isFollowup userInput prev prevAi = true) : truthyOpt prev = true := by
  unfold isFollowup at h
  rcases Bool.or_eq_true_iff.mp h with h1 | h2
  · exact (Bool.and_eq_true_iff.mp h1).1
  · cases prevAi with
    | none => simp at h2
    | some ai => exact (Bool.and_eq_true_iff.mp h2).1

/-! ## Claim C10 -/

/-- C10: for every query text, reference date and schema state, calling the
panel query handler with a missing or falsy user identifier (`None` or `0`)
returns the fixed error string immediately — the result does not depend on the
query, so neither the static FAQ table, the temporal resolver, nor the
database is consulted. -/
theorem handlePanelQuery_missing_user_id (userQuery : String) (userId : Option Int)
    (today : Date) (schemaLoaded : Bool) (h : userId = none ∨ userId = some 0) :
    handlePanelQuery userQuery userId today schemaLoaded =
      PanelOutcome.errorMsg "Error: User ID not provided. Cannot process panel query." := by
  rcases h with rfl | rfl <;> rfl

/-- Witness for C10: even a query matching a static FAQ trigger gets the
error string when the user id is `0`. -/
theorem handlePanelQuery_missing_user_id_witness :
    handlePanelQuery "change email id please" (some 0) ⟨2025, 10, 12⟩ true =
      PanelOutcome.errorMsg "Error: User ID not provided. Cannot process panel query." :=
  handlePanelQuery_missing_user_id "change email id please" (some 0) ⟨2025, 10, 12⟩
    true (Or.inr rfl)

/-! ## Claim C6 -/

/-- C6 counterexample: with reference date 2026-06-15 (so the current year is
2026) and resolved start 2026-07-01 strictly in the future, the earnings lookup
rejects even though the start's year equals the current year; and in the
year-2025 case the lookup rewrites the start bound to 2025-01-01 instead of
clamping only the end bound. -/
theorem panelRange_counterexample :
    getUserEarningsRangeCheck ⟨2026, 6, 15⟩ ⟨2026, 7, 1⟩ ⟨2026, 7, 31⟩ =
      RangeCheck.reject 2026 ∧
    getUserEarningsRangeCheck ⟨2025, 6, 15⟩ ⟨2025, 7, 1⟩ ⟨2025, 7, 31⟩ =
      RangeCheck.proceed ⟨2025, 1, 1⟩ ⟨2025, 6, 15⟩ ∧
    (⟨2025, 1, 1⟩ : Date) ≠ ⟨2025, 7, 1⟩ := by
  refine ⟨by decide, by decide, by decide⟩

/-- C6 amended: the three lookups reject a start strictly after the reference
date with a future-data message, unless the start's year is the literal 2025
(a hardcoded year, not the current year), in which case they replace the whole
range by (2025-01-01, reference date); the time-stats lookup first bypasses
the check when the start is the 2000-01-01 all-time convention. -/
theorem panelRange_hardcoded2025 (today s e : Date) :
    (s.year = 2025 →
      getUserEarningsRangeCheck today s e = RangeCheck.proceed ⟨2025, 1, 1⟩ today ∧
      getCompletedSurveysRangeCheck today s e = RangeCheck.proceed ⟨2025, 1, 1⟩ today ∧
      getTimeEarnedStatsRangeCheck today s e = RangeCheck.proceed ⟨2025, 1, 1⟩ today) ∧
    (s.year ≠ 2025 → Date.lt today s →
      getUserEarningsRangeCheck today s e = RangeCheck.reject s.year ∧
      getCompletedSurveysRangeCheck today s e = RangeCheck.reject s.year ∧
      (s ≠ ⟨2000, 1, 1⟩ →
        getTimeEarnedStatsRangeCheck today s e = RangeCheck.reject s.year)) ∧
    (s.year ≠ 2025 → ¬ Date.lt today s →
      getUserEarningsRangeCheck today s e = RangeCheck.proceed s e ∧
      getCompletedSurveysRangeCheck today s e = RangeCheck.proceed s e ∧
      (s ≠ ⟨2000, 1, 1⟩ →
        getTimeEarnedStatsRangeCheck today s e = RangeCheck.proceed s e)) := by
  refine ⟨?_, ?_, ?_⟩
  · intro h
    have hne : s ≠ (⟨2000, 1, 1⟩ : Date) := by
      intro hs
      rw [hs] at h
      exact absurd h (by decide)
    unfold getUserEarningsRangeCheck getCompletedSurveysRangeCheck
      getTimeEarnedStatsRangeCheck
    simp [h, hne]
  · intro h hlt
    unfold getUserEarningsRangeCheck getCompletedSurveysRangeCheck
      getTimeEarnedStatsRangeCheck
    refine ⟨?_, ?_, ?_⟩ <;> intros <;> simp_all
  · intro h hlt
    unfold getUserEarningsRangeCheck getCompletedSurveysRangeCheck
      getTimeEarnedStatsRangeCheck
    refine ⟨?_, ?_, ?_⟩ <;> intros <;> simp_all

/-- Witness for C6 amended: the concrete rejection at current year 2026. -/
theorem panelRange_hardcoded2025_witness :
    getUserEarningsRangeCheck ⟨2026, 6, 15⟩ ⟨2026, 7, 1⟩ ⟨2026, 7, 31⟩ =
      RangeCheck.reject 2026 :=
  ((panelRange_hardcoded2025 ⟨2026, 6, 15⟩ ⟨2026, 7, 1⟩ ⟨2026, 7, 31⟩).2.1
    (by decide) (by decide)).1

/-! ## Claim C1 -/

/-- C1 (code bug): for the input "show my earnings please" — which matches the
personal-earnings guard of the override chain but contains no 4-digit year —
the chain enters the guard's branch and leaves the oracle's answer untouched,
and because the sanitizing not-in-valid-labels check is a later arm of the same
`elif` chain it never runs: an oracle answer of "banana" is returned verbatim,
outside the closed six-label set. -/
theorem classifyIntent_out_of_set_leak :
    classifyIntent "show my earnings please" none none none true
      (Oracle.answers "banana") = "banana" ∧
    (["panel_support", "conference_info", "research_lookup", "zoomrx_wiki",
      "greeting_chit_chat", "unknown"].contains "banana") = false :=
  ⟨rfl, by decide⟩

/-! ## Claim C2 -/

/-- C2: whenever the follow-up detector signals a continuation and the previous
intent is present, classification returns exactly the previous intent — for
every user text, topic, API-key state and oracle behavior, so the oracle is
never consulted. -/
theorem classifyIntent_followup (userInput p : String)
    (prev topic prevAi : Option String) (apiKey : Bool) (oracle : Oracle)
    (hf : isFollowup userInput prev prevAi = true) (hp : prev = some p) :
    classifyIntent userInput prev topic prevAi apiKey oracle = p := by
  have ht := isFollowup_truthy hf
  unfold classifyIntent
  rw [hf, ht]
  simp [hp]

/-- Witness for C2: a "tell me more" follow-up keeps the prior `zoomrx_wiki`
intent although the oracle answers `panel_support`. -/
theorem classifyIntent_followup_witness :
    classifyIntent "tell me more" (some "zoomrx_wiki") none none true
      (Oracle.answers "panel_support") = "zoomrx_wiki" :=
  classifyIntent_followup "tell me more" "zoomrx_wiki" (some "zoomrx_wiki") none none
    true (Oracle.answers "panel_support") rfl rfl

/-! ## Claim C3 -/

/-- C3 counterexample: "how to increase earnings" matches rule d's trigger
(earnings + "how"/"increase", no recency wording) and none of rules a–c as the
spec states them (no brand phrasing, no recency wording, no 4-digit year), yet
with an oracle answering `research_lookup` the classification keeps
`research_lookup`: the code-level guard of rule c (which does not require the
year — and its personal wording is met by the bare letter `i` of "increase")
consumes the `elif` chain, so rule d is never consulted. -/
theorem ruleD_shadowed_counterexample :
    ruleEarningsOpportunity (lowerChars "how to increase earnings".toList) = true ∧
    ruleZoomrxProduct (lowerChars "how to increase earnings".toList) = false ∧
    recencyWords (lowerChars "how to increase earnings".toList) = false ∧
    classifyYearFound (lowerChars "how to increase earnings".toList) = false ∧
    classifyIntent "how to increase earnings" none none none true
      (Oracle.answers "research_lookup") = "research_lookup" ∧
    "research_lookup" ≠ "zoomrx_wiki" :=
  ⟨rfl, rfl, rfl, rfl, rfl, by decide⟩

/-- C3 amended: rule d assigns `zoomrx_wiki` regardless of the oracle's answer
only when, additionally, rule c's code-level guard (earnings vocabulary plus
personal wording, including the bare substring "i", with no year required)
does not match; queries that match rule d's trigger together with that guard
keep the oracle's answer instead. -/
theorem ruleD_applies_without_personal_guard (userInput : String)
    (prev topic prevAi : Option String) (oracle : Oracle)
    (hf : (isFollowup userInput prev prevAi && truthyOpt prev) = false)
    (ha : ruleZoomrxProduct (lowerChars userInput.toList) = false)
    (hb : ruleEarningsRecency (lowerChars userInput.toList) = false)
    (hc : ruleEarningsPersonalGuard (lowerChars userInput.toList) = false)
    (hd : ruleEarningsOpportunity (lowerChars userInput.toList) = true) :
    classifyIntent userInput prev topic prevAi true oracle = "zoomrx_wiki" := by
  unfold classifyIntent
  rw [hf]
  cases oracle <;> (unfold overrideChain; rw [ha, hb, hc, hd]) <;> rfl

/-- Witness for C3 amended: "how to get more payment" (earnings-opportunity
wording, no personal wording, no letter `i`) is routed to `zoomrx_wiki` against
the oracle. -/
theorem ruleD_applies_without_personal_guard_witness :
    classifyIntent "how to get more payment" none none none true
      (Oracle.answers "research_lookup") = "zoomrx_wiki" :=
  ruleD_applies_without_personal_guard "how to get more payment" none none none
    (Oracle.answers "research_lookup") rfl rfl rfl rfl rfl

/-! ## Claim C7 -/

/-- C7 counterexample: when the oracle throws on the input "conference", the
classification is `conference_info`, not `unknown` — the deterministic
override rules run after the failure default and rescue the intent. -/
theorem oracle_throw_counterexample :
    classifyIntent "conference" none none none true Oracle.throws =
      "conference_info" ∧
    "conference_info" ≠ "unknown" :=
  ⟨rfl, by decide⟩

/-- C7 amended: when the API key is missing the result is `unknown` for every
oracle; when the oracle call throws the result defaults to `unknown` but the
deterministic override rules still apply, so the result is `unknown` exactly
when no override rule matches; in either case no exception escapes (the
embedding is a total function). -/
theorem classifyIntent_failure_defaults (userInput : String)
    (prev topic prevAi : Option String) (oracle : Oracle)
    (hf : (isFollowup userInput prev prevAi && truthyOpt prev) = false) :
    classifyIntent userInput prev topic prevAi false oracle = "unknown" ∧
    (ruleZoomrxProduct (lowerChars userInput.toList) = false →
      ruleEarningsRecency (lowerChars userInput.toList) = false →
      ruleEarningsPersonalGuard (lowerChars userInput.toList) = false →
      ruleEarningsOpportunity (lowerChars userInput.toList) = false →
      rulePanelData (lowerChars userInput.toList) = false →
      ruleZoomrxOther (lowerChars userInput.toList) = false →
      ruleConference (lowerChars userInput.toList) = false →
      classifyIntent userInput prev topic prevAi true Oracle.throws = "unknown") := by
  constructor
  · unfold classifyIntent
    rw [hf]
    rfl
  · intro h1 h2 h3 h4 h5 h6 h7
    unfold classifyIntent
    rw [hf]
    unfold overrideChain
    rw [h1, h2, h3, h4, h5, h6, h7]
    rfl

/-- Witness for C7 amended: a neutral greeting gives `unknown` both with a
missing API key and with a throwing oracle. -/
theorem classifyIntent_failure_defaults_witness :
    classifyIntent "hello there" none none none false
      (Oracle.answers "panel_support") = "unknown" ∧
    classifyIntent "hello there" none none none true Oracle.throws = "unknown" := by
  have h := classifyIntent_failure_defaults "hello there" none none none
    (Oracle.answers "panel_support") rfl
  exact ⟨h.1, h.2 rfl rfl rfl rfl rfl rfl rfl⟩

/-! ## Claim C4 -/

/-- C4 counterexample: "in 2024 last 3 months" matches the earlier bare-year
rule, yet the result (relative to 2025-06-15) is the `last 3 months` window,
not what the earlier rule alone produces on "in 2024": the `last X` rule is
applied after the chain and overwrites both bounds, so the first matching rule
does not determine the result. -/
theorem lastX_combination_counterexample :
    calculateDateRange "in 2024 last 3 months" ⟨2025, 6, 15⟩ =
      (some ⟨2025, 3, 1⟩, some ⟨2025, 6, 15⟩) ∧
    calculateDateRange "in 2024" ⟨2025, 6, 15⟩ =
      (some ⟨2024, 1, 1⟩, some ⟨2024, 12, 31⟩) ∧
    (some (⟨2025, 3, 1⟩ : Date), some (⟨2025, 6, 15⟩ : Date)) ≠
      (some (⟨2024, 1, 1⟩ : Date), some (⟨2024, 12, 31⟩ : Date)) :=
  ⟨rfl, rfl, by decide⟩

/-- C4 amended: apart from the all-time early return, the `last N
days/weeks/months` rule is evaluated after all other rules and, when its
pattern occurs anywhere in the expression, overwrites both bounds; only when
it is absent does the first matching rule of the chain alone determine the
result. -/
theorem lastX_override_behavior (expr : String) (today : Date)
    (hA : allTimeMarker (lowerChars expr.toList) = false) :
    (∀ n u, findLastX (lowerChars expr.toList) = some (n, u) →
      calculateDateRange expr today = (some (lastXStart today n u), some today)) ∧
    (findLastX (lowerChars expr.toList) = none →
      calculateDateRange expr today = relChain (lowerChars expr.toList) today) := by
  constructor
  · intro n u hL
    unfold calculateDateRange
    rw [hA, hL]
    rfl
  · intro hL
    unfold calculateDateRange
    rw [hA, hL]
    rfl

/-- Witness for C4 amended: "this year last 2 weeks" matches the named window
"this year", but the result is the `last 2 weeks` window. -/
theorem lastX_override_behavior_witness :
    calculateDateRange "this year last 2 weeks" ⟨2025, 10, 12⟩ =
      (some ⟨2025, 9, 28⟩, some ⟨2025, 10, 12⟩) :=
  (lastX_override_behavior "this year last 2 weeks" ⟨2025, 10, 12⟩ rfl).1
    2 TimeUnit.weeks rfl

/-! ## Claim C5 -/

/-- C5 counterexample: resolving "last 3 months" at reference date 2025-10-12
yields start 2025-07-01, the first day of the month three months earlier — not
2025-07-12, the date exactly three months before the reference date. -/
theorem lastNMonths_counterexample :
    calculateDateRange "last 3 months" ⟨2025, 10, 12⟩ =
      (some ⟨2025, 7, 1⟩, some ⟨2025, 10, 12⟩) ∧
    (⟨2025, 7, 1⟩ : Date) ≠ ⟨2025, 7, 12⟩ :=
  ⟨rfl, by decide⟩

/-- C5 amended: for every expression whose `last N months` pattern matches
(and that carries no all-time marker) and every reference date, the end bound
is the reference date and the start bound is the first calendar day of the
month N months earlier, with the year rolled back via the `n % 12` / `n / 12`
computation when the subtraction crosses a year boundary. -/
theorem lastNMonths_behavior (expr : String) (today : Date) (n : Nat)
    (hA : allTimeMarker (lowerChars expr.toList) = false)
    (hL : findLastX (lowerChars expr.toList) = some (n, TimeUnit.months)) :
    calculateDateRange expr today = (some (monthsBackStart today n), some today) := by
  unfold calculateDateRange
  rw [hA, hL]
  rfl

/-- Witness for C5 amended: "last 3 months" at 2025-02-10 rolls back across the
year boundary to 2024-11-01. -/
theorem lastNMonths_behavior_witness :
    calculateDateRange "last 3 months" ⟨2025, 2, 10⟩ =
      (some ⟨2024, 11, 1⟩, some ⟨2025, 2, 10⟩) :=
  lastNMonths_behavior "last 3 months" ⟨2025, 2, 10⟩ 3 rfl rfl

/-! ## Claim C9 -/

/-- The month of a successful month-name scan comes from the table. -/
theorem tryMonthEntries_mem {tbl : List (List Char × List Char × Int)} {cs : List Char}
    {m y : Int} (h : tryMonthEntries tbl cs = some (m, y)) :
    ∃ full ab, (full, ab, m) ∈ tbl := by
  induction tbl with
  | nil => simp [tryMonthEntries] at h
  | cons entry rest ih =>
    obtain ⟨full, ab, n⟩ := entry
    unfold tryMonthEntries at h
    split at h
    · simp only [Option.some.injEq, Prod.mk.injEq] at h
      exact ⟨full, ab, by rw [← h.1]; exact List.mem_cons_self _ _⟩
    · split at h
      · simp only [Option.some.injEq, Prod.mk.injEq] at h
        exact ⟨full, ab, by rw [← h.1]; exact List.mem_cons_self _ _⟩
      · obtain ⟨f2, a2, hmem⟩ := ih h
        exact ⟨f2, a2, List.mem_cons_of_mem _ hmem⟩

/-- Every month number in the table lies between 1 and 12. -/
theorem monthTable_third_bounds {full ab : List Char} {m : Int}
    (h : (full, ab, m) ∈ monthTable) : 1 ≤ m ∧ m ≤ 12 := by
  fin_cases h <;> omega

/-- A successful month-name + year scan yields a month between 1 and 12. -/
theorem findMonthYear_bounds {cs : List Char} {m y : Int}
    (h : findMonthYear cs = some (m, y)) : 1 ≤ m ∧ m ≤ 12 := by
  induction cs with
  | nil => simp [findMonthYear] at h
  | cons c rest ih =>
    unfold findMonthYear at h
    split at h
    · rename_i r heq
      rw [h] at heq
      obtain ⟨f2, a2, hmem⟩ := tryMonthEntries_mem heq
      exact monthTable_third_bounds hmem
    · exact ih h

/-- `predDay` of the first of a month with `1 < m` is the last day of the
preceding month. -/
theorem predDay_first (y m : Int) (hm : 1 < m) :
    predDay ⟨y, m, 1⟩ = ⟨y, m - 1, daysInMonth y (m - 1)⟩ := by
  unfold predDay
  simp [hm]

/-- `predDay` of the first of January is December 31 of the preceding year. -/
theorem predDay_jan1 (y : Int) : predDay ⟨y, 1, 1⟩ = ⟨y - 1, 12, 31⟩ := by
  unfold predDay
  simp

/-- The day of `predDay` of the first of any month is at least 1. -/
theorem predDay_first_day_ge (y m : Int) : 1 ≤ (predDay ⟨y, m, 1⟩).day := by
  unfold predDay
  simp only [show ¬((1 : Int) < 1) by omega, if_false]
  split
  · simp
    have := daysInMonth_ge y (m - 1)
    omega
  · simp

/-- The `elif` chain of the resolver alone (no `last X` overwrite, no all-time
marker) always yields an ordered pair when both bounds are present. -/
theorem relChain_ordered (q : List Char) (today : Date) (s e : Date)
    (hv : today.Valid) (h : relChain q today = (some s, some e)) : Date.le s e := by
  obtain ⟨hm1, hm2, hd1, hd2⟩ := hv
  unfold relChain at h
  split at h
  · -- "last month"
    simp only [Prod.mk.injEq, Option.some.injEq] at h
    obtain ⟨rfl, rfl⟩ := h
    exact firstOfMonth_le _ (predDay_first_day_ge today.year today.month)
  · split at h
    · -- "last year"
      simp only [Prod.mk.injEq, Option.some.injEq] at h
      obtain ⟨rfl, rfl⟩ := h
      unfold Date.le
      simp
    · split at h
      · -- "last week"
        simp only [Prod.mk.injEq, Option.some.injEq] at h
        obtain ⟨rfl, rfl⟩ := h
        exact le_addDays _ 6
      · split at h
        · -- "this month"
          simp only [Prod.mk.injEq, Option.some.injEq] at h
          obtain ⟨rfl, rfl⟩ := h
          exact firstOfMonth_le today hd1
        · split at h
          · -- "this year"
            simp only [Prod.mk.injEq, Option.some.injEq] at h
            obtain ⟨rfl, rfl⟩ := h
            unfold Date.le
            simp
            omega
          · split at h
            · -- "this week"
              simp only [Prod.mk.injEq, Option.some.injEq] at h
              obtain ⟨rfl, rfl⟩ := h
              exact subDays_le today _
            · -- month-name + year, bare year, or nothing
              split at h
              · rename_i p m' y' heq
                simp only [Prod.mk.injEq, Option.some.injEq] at h
                obtain ⟨rfl, rfl⟩ := h
                obtain ⟨hb1, hb2⟩ := findMonthYear_bounds heq
                by_cases h12 : m' = 12
                · subst h12
                  simp only [show ((12 : Int) == 12) = true by decide, if_true]
                  show Date.le _ (subDays ⟨y' + 1, 1, 1⟩ 1)
                  unfold subDays subDays
                  rw [predDay_jan1]
                  unfold Date.le
                  simp
                · rw [if_neg (by simpa using h12)]
                  show Date.le _ (subDays ⟨y', m' + 1, 1⟩ 1)
                  unfold subDays subDays
                  rw [predDay_first y' (m' + 1) (by omega)]
                  have h28 := daysInMonth_ge y' m'
                  have h28b := daysInMonth_ge y' (m' + 1 - 1)
                  unfold Date.le
                  simp
                  omega
              · split at h
                · -- bare year
                  simp only [Prod.mk.injEq, Option.some.injEq] at h
                  obtain ⟨rfl, rfl⟩ := h
                  unfold Date.le
                  simp
                · simp at h

/-- C9 counterexample: at a reference date before the all-time epoch floor the
resolver returns an inverted pair — for reference date 1999-06-15, "all time"
resolves to (2000-01-01, 1999-06-15), violating start ≤ end. -/
theorem resolver_range_counterexample :
    calculateDateRange "all time" ⟨1999, 6, 15⟩ =
      (some ⟨2000, 1, 1⟩, some ⟨1999, 6, 15⟩) ∧
    ¬ Date.le ⟨2000, 1, 1⟩ ⟨1999, 6, 15⟩ :=
  ⟨rfl, by decide⟩

/-- C9 amended: for every input expression and every valid reference date on or
after the all-time epoch floor 2000-01-01, whenever the resolver returns a pair
with both bounds non-null, start ≤ end holds. -/
theorem resolver_range_ordered (expr : String) (today : Date) (s e : Date)
    (hv : today.Valid) (hfloor : Date.le ⟨2000, 1, 1⟩ today)
    (h : calculateDateRange expr today = (some s, some e)) : Date.le s e := by
  unfold calculateDateRange at h
  split at h
  · simp only [Prod.mk.injEq, Option.some.injEq] at h
    obtain ⟨rfl, rfl⟩ := h
    exact hfloor
  · split at h
    · rename_i p n u heq
      simp only [Prod.mk.injEq, Option.some.injEq] at h
      obtain ⟨rfl, rfl⟩ := h
      cases u with
      | days => exact subDays_le today n
      | weeks => exact subDays_le today (7 * n)
      | months => exact monthsBackStart_le today n hv.2.2.1
    · exact relChain_ordered _ today s e hv h

/-- Witness for C9 amended: the ordered range of "april 2025" at reference date
2026-10-12. -/
theorem resolver_range_ordered_witness :
    Date.le ⟨2025, 4, 1⟩ ⟨2025, 4, 30⟩ :=
  resolver_range_ordered "april 2025" ⟨2026, 10, 12⟩ ⟨2025, 4, 1⟩ ⟨2025, 4, 30⟩
    (by decide) (by decide) rfl

/-! ## Claim C8 -/

theorem isSpaceChar_space : isSpaceChar ' ' = true := rfl

/-- Being an initial segment is transitive. -/
theorem listStartsWith_trans {n1 n2 hay : List Char}
    (h12 : listStartsWith n1 n2 = true) (h2h : listStartsWith n2 hay = true) :
    listStartsWith n1 hay = true := by
  induction n1 generalizing n2 hay with
  | nil => rfl
  | cons a as ih =>
    cases n2 with
    | nil => simp [listStartsWith] at h12
    | cons b bs =>
      cases hay with
      | nil => simp [listStartsWith] at h2h
      | cons c cs =>
        simp only [listStartsWith, Bool.and_eq_true, beq_iff_eq] at *
        obtain ⟨rfl, h12t⟩ := h12
        obtain ⟨rfl, h2ht⟩ := h2h
        exact ⟨rfl, ih h12t h2ht⟩

/-- If a prefix of a needle does not occur in a string, neither does the
needle. -/
theorem contains_false_of_prefix_false {n1 n2 : List Char}
    (hpre : listStartsWith n1 n2 = true) :
    ∀ {hay : List Char}, listContainsSeq n1 hay = false →
      listContainsSeq n2 hay = false := by
  intro hay
  induction hay with
  | nil =>
    intro h
    unfold listContainsSeq at *
    cases n2 with
    | nil =>
      cases n1 with
      | nil => exact h
      | cons x xs => simp [listStartsWith] at hpre
    | cons b bs => rfl
  | cons c rest ih =>
    intro h
    unfold listContainsSeq at h ⊢
    rw [Bool.or_eq_false_iff] at h ⊢
    refine ⟨?_, ih h.2⟩
    cases hsw : listStartsWith n2 (c :: rest) with
    | false => rfl
    | true =>
      have ht := listStartsWith_trans hpre hsw
      rw [h.1] at ht
      exact absurd ht (by simp)

/-- `hasSub` transfer along needle prefixes. -/
theorem hasSub_false_of_prefix {hay : List Char} {s1 s2 : String}
    (hpre : listStartsWith s1.toList s2.toList = true)
    (h : hasSub hay s1 = false) : hasSub hay s2 = false :=
  contains_false_of_prefix_false hpre h

/-- When the substring "last" does not occur, the `last X` pattern cannot
match anywhere. -/
theorem findLastX_eq_none {cs : List Char}
    (h : listContainsSeq "last".toList cs = false) : findLastX cs = none := by
  induction cs with
  | nil => rfl
  | cons c rest ih =>
    unfold listContainsSeq at h
    rw [Bool.or_eq_false_iff] at h
    unfold findLastX
    have hsw : lastXAt (c :: rest) = none := by
      unfold lastXAt strStartsWith
      rw [h.1]
      rfl
    rw [hsw]
    exact ih h.2

/-- `\s+(\d{4})` on a space followed by exactly four digit characters. -/
theorem parseWsYear_digits {a b c d : Nat} (ha : a ≤ 9) (hb : b ≤ 9) (hc : c ≤ 9)
    (hd : d ≤ 9) :
    parseWsYear (' ' :: [digitChar a, digitChar b, digitChar c, digitChar d]) =
      some (1000 * (a : Int) + 100 * (b : Int) + 10 * (c : Int) + (d : Int)) := by
  simp [parseWsYear, skipSpaces, fourDigitsAt, isSpaceChar_space,
    isSpaceChar_digitChar a ha,
    isDigitChar_digitChar a ha, isDigitChar_digitChar b hb,
    isDigitChar_digitChar c hc, isDigitChar_digitChar d hd,
    digitVal_digitChar a ha, digitVal_digitChar b hb,
    digitVal_digitChar c hc, digitVal_digitChar d hd]

/-- `lowerChars` fixes a month-name-plus-digits string whose name part is
already lowercase. -/
theorem lowerChars_name_digits {name : List Char} (hname : lowerChars name = name)
    {a b c d : Nat} (ha : a ≤ 9) (hb : b ≤ 9) (hc : c ≤ 9) (hd : d ≤ 9) :
    lowerChars (name ++ ' ' :: [digitChar a, digitChar b, digitChar c, digitChar d]) =
      name ++ ' ' :: [digitChar a, digitChar b, digitChar c, digitChar d] := by
  unfold lowerChars at *
  rw [List.map_append, hname]
  simp [lowerChar_digitChar a ha, lowerChar_digitChar b hb, lowerChar_digitChar c hc,
    lowerChar_digitChar d hd, show lowerChar ' ' = ' ' from rfl]

/-- The resolver on an expression whose only temporal content is a successful
month-name + year match: start is the first of that month, end its last day. -/
theorem calculateDateRange_monthYear (expr : String) (today : Date) {m y : Int}
    (hAT1 : hasSub (lowerChars expr.toList) "all time" = false)
    (hAT2 : hasSub (lowerChars expr.toList) "all-time" = false)
    (hAT3 : hasSub (lowerChars expr.toList) "lifetime" = false)
    (hLast : hasSub (lowerChars expr.toList) "last" = false)
    (hThis : hasSub (lowerChars expr.toList) "this" = false)
    (hm : findMonthYear (lowerChars expr.toList) = some (m, y)) (hmb : 1 ≤ m) :
    calculateDateRange expr today =
      (some ⟨y, m, 1⟩, some ⟨y, m, daysInMonth y m⟩) := by
  have hA : allTimeMarker (lowerChars expr.toList) = false := by
    unfold allTimeMarker
    rw [hAT1, hAT2, hAT3]
    rfl
  have h1 : hasSub (lowerChars expr.toList) "last month" = false :=
    hasSub_false_of_prefix (by decide) hLast
  have h2 : hasSub (lowerChars expr.toList) "last year" = false :=
    hasSub_false_of_prefix (by decide) hLast
  have h3 : hasSub (lowerChars expr.toList) "last week" = false :=
    hasSub_false_of_prefix (by decide) hLast
  have h4 : hasSub (lowerChars expr.toList) "this month" = false :=
    hasSub_false_of_prefix (by decide) hThis
  have h5 : hasSub (lowerChars expr.toList) "this year" = false :=
    hasSub_false_of_prefix (by decide) hThis
  have h6 : hasSub (lowerChars expr.toList) "this week" = false :=
    hasSub_false_of_prefix (by decide) hThis
  have hFL : findLastX (lowerChars expr.toList) = none := findLastX_eq_none hLast
  unfold calculateDateRange
  rw [hA, hFL]
  show relChain (lowerChars expr.toList) today = _
  unfold relChain
  rw [h1, h2, h3, h4, h5, h6, hm]
  show ((some (⟨y, m, 1⟩ : Date),
         some (if m == 12 then subDays (⟨y + 1, 1, 1⟩ : Date) 1
               else subDays (⟨y, m + 1, 1⟩ : Date) 1)) : Option Date × Option Date) = _
  by_cases h12 : m = 12
  · subst h12
    simp [subDays, predDay_jan1, daysInMonth]
  · rw [if_neg (by simpa using h12)]
    show ((some (⟨y, m, 1⟩ : Date), some (predDay (⟨y, m + 1, 1⟩ : Date))) :
           Option Date × Option Date) = _
    rw [predDay_first y (m + 1) (by omega), show m + 1 - 1 = m from by omega]

/-- C8: for every recognized month name (full name or abbreviation, as listed
in the source's month alternation) and every 4-digit year — written as digits
`a b c d` with `a ≥ 1` — resolving the expression "name year" at any reference
date yields start = the first day of that month and year, and end = its last
calendar day, correctly across the year boundary when the month is December. -/
theorem monthYear_resolution (today : Date) (full ab : List Char) (mn : Int)
    (hmem : (full, ab, mn) ∈ monthTable) (name : List Char)
    (hname : name = full ∨ name = ab)
    (a b c d : Nat) (_ha1 : 1 ≤ a) (ha : a ≤ 9) (hb : b ≤ 9) (hc : c ≤ 9)
    (hd : d ≤ 9) :
    calculateDateRange
        (String.mk (name ++ ' ' :: [digitChar a, digitChar b, digitChar c, digitChar d]))
        today =
      (some ⟨1000 * (a : Int) + 100 * (b : Int) + 10 * (c : Int) + (d : Int), mn, 1⟩,
       some ⟨1000 * (a : Int) + 100 * (b : Int) + 10 * (c : Int) + (d : Int), mn,
             daysInMonth
               (1000 * (a : Int) + 100 * (b : Int) + 10 * (c : Int) + (d : Int)) mn⟩) := by
  fin_cases hmem <;> rcases hname with rfl | rfl <;>
    refine calculateDateRange_monthYear _ today ?_ ?_ ?_ ?_ ?_ ?_ (by norm_num) <;>
    rw [toList_mk, lowerChars_name_digits (by decide) ha hb hc hd] <;>
    first
    | exact hasSub_nameDigits_false _ 'l' (by decide) (by decide) (by decide)
        (by decide) ha hb hc hd
    | exact hasSub_nameDigits_false _ 't' (by decide) (by decide) (by decide)
        (by decide) ha hb hc hd
    | exact hasSub_nameDigits_false _ 's' (by decide) (by decide) (by decide)
        (by decide) ha hb hc hd
    | exact hasSub_nameDigits_false _ 'h' (by decide) (by decide) (by decide)
        (by decide) ha hb hc hd
    | (unfold findMonthYear
       simp [tryMonthEntries, monthTable, dropPrefixChars,
         parseWsYear_digits ha hb hc hd])

/-- Witness for C8: "april 2025" resolves to (2025-04-01, 2025-04-30) at an
arbitrary reference date. -/
theorem monthYear_resolution_witness :
    calculateDateRange "april 2025" ⟨2026, 1, 15⟩ =
      (some ⟨2025, 4, 1⟩, some ⟨2025, 4, 30⟩) := by
  have h := monthYear_resolution ⟨2026, 1, 15⟩ ['a','p','r','i','l'] ['a','p','r'] 4
    (by decide) ['a','p','r','i','l'] (Or.inl rfl) 2 0 2 5
    (by decide) (by decide) (by decide) (by decide) (by decide)
  exact h

end Agastya
